import Mathlib

/-!
Verification of the Peng-Robinson CO2 equation-of-state evaluator
(`calculate_pr_eos`) and the default pipeline (`main`) of
`plot_co2_eos.py`, over an exact real-number model of the
floating-point arithmetic in the code.  The NumPy broadcast of the reshaped
temperature column against the molar-volume row is modelled by pairing
each temperature with its attraction parameter `a` and mapping over the
molar-volume list, producing one row per temperature.
-/

namespace PlotCO2

noncomputable section

open Real

/-- CO2 critical temperature (K), hard-coded in `calculate_pr_eos`. -/
def Tc : ℝ := 304.2

/-- CO2 critical pressure (Pa), hard-coded in `calculate_pr_eos`. -/
def Pc : ℝ := 7.377e6

/-- CO2 acentric factor, hard-coded in `calculate_pr_eos`. -/
def w : ℝ := 0.228

/-- Universal gas constant (J/(mol·K)), hard-coded in `calculate_pr_eos`. -/
def R : ℝ := 8.314

/-- Peng-Robinson constant `Psi`. -/
def Psi : ℝ := 0.45724

/-- Peng-Robinson constant `Omega`. -/
def Omega : ℝ := 0.07780

/-- Acentric coefficient `K = 0.37464 + 1.54226*w - 0.26992*w**2`. -/
def K : ℝ := 0.37464 + 1.54226 * w - 0.26992 * w ^ 2

/-- Co-volume `b = Omega * R * Tc / Pc`. -/
def b : ℝ := Omega * R * Tc / Pc

/-- Temperature factor `alpha = (1 + K*(1 - np.sqrt(Tr)))**2` at reduced
temperature `Tr = T / Tc`. -/
def alpha (T : ℝ) : ℝ := (1 + K * (1 - Real.sqrt (T / Tc))) ^ 2

/-- Attraction parameter `a = Psi * alpha * (R**2 * Tc**2) / Pc`, one
value per temperature. -/
def a (T : ℝ) : ℝ := Psi * alpha T * (R ^ 2 * Tc ^ 2) / Pc

/-- One cell of the pressure grid:
`R*T/(V - b) - a/(V*(V + b) + b*(V - b))`. -/
def pressure (T V : ℝ) : ℝ :=
  R * T / (V - b) - a T / (V * (V + b) + b * (V - b))

/-- The vectorized Peng-Robinson evaluation `calculate_pr_eos`.  The
`a` column (shape NT×1) is formed from the temperature list exactly as
in the source; the broadcast against the molar-volume row produces, for
row `i`, the map of `V ↦ R*T[i]/(V-b) - a[i]/(V*(V+b)+b*(V-b))` over
the molar volumes. -/
def calculate_pr_eos (temperatures_K molar_volumes : List ℝ) : List (List ℝ) :=
  let aCol : List ℝ :=
    temperatures_K.map fun T =>
      Psi * ((1 + K * (1 - Real.sqrt (T / Tc))) ^ 2) * (R ^ 2 * Tc ^ 2) / Pc
  List.zipWith
    (fun T ai =>
      molar_volumes.map fun V =>
        R * T / (V - b) - ai / (V * (V + b) + b * (V - b)))
    temperatures_K aCol

/-- Molar mass `molar_mass_co2 = 0.044` kg/mol, from `main`. -/
def molar_mass_co2 : ℝ := 0.044

/-- Densities `np.linspace(50, 1000, 50)`: the 50 values
`50 + i*(1000-50)/49`. -/
def densities_kg_m3 : List ℝ :=
  (List.range 50).map fun i : ℕ => 50 + (i : ℝ) * (1000 - 50) / 49

/-- The default temperature vector of `main`. -/
def temperatures_K : List ℝ := [295, 325, 345, 375]

/-- Conversion `molar_volumes_m3_mol = molar_mass_co2 / densities_kg_m3`,
element-wise. -/
def molar_volumes_m3_mol : List ℝ :=
  densities_kg_m3.map fun ρ => molar_mass_co2 / ρ

/-- Pressure grid of the default pipeline. -/
def pressure_Pa : List (List ℝ) :=
  calculate_pr_eos temperatures_K molar_volumes_m3_mol

/-- Substance constants as the §4.1 contract of the spec passes them. -/
structure SubstanceConstants where
  Tc : ℝ
  Pc : ℝ
  w : ℝ
  R : ℝ

/-- The CO2 constants of the source. -/
def co2Constants : SubstanceConstants :=
  { Tc := 304.2, Pc := 7.377e6, w := 0.228, R := 8.314 }

/-- Modelled from the spec (§4.1 contract, for comparison with the
`calculate_pr_eos` of the source): the same Peng-Robinson algorithm, but
with the substance constants supplied by the caller instead of being
literals in the body. -/
def evaluate (temperatures molar_volumes : List ℝ)
    (c : SubstanceConstants) : List (List ℝ) :=
  let Kc : ℝ := 0.37464 + 1.54226 * c.w - 0.26992 * c.w ^ 2
  let bc : ℝ := 0.07780 * c.R * c.Tc / c.Pc
  let aCol : List ℝ :=
    temperatures.map fun T =>
      0.45724 * ((1 + Kc * (1 - Real.sqrt (T / c.Tc))) ^ 2) *
        (c.R ^ 2 * c.Tc ^ 2) / c.Pc
  List.zipWith
    (fun T ai =>
      molar_volumes.map fun V =>
        c.R * T / (V - bc) - ai / (V * (V + bc) + bc * (V - bc)))
    temperatures aCol

/-- An explicit bound for the physically stable region of C6: molar
volumes at least `b + max 1 (2*a(T)*(1+2*b)/(R*T))` are sufficiently
larger than `b` for the repulsive term to dominate. -/
def stable_threshold (T : ℝ) : ℝ :=
  b + max 1 (2 * a T * (1 + 2 * b) / (R * T))

/-- The evaluator is the pointwise pressure formula: row `i` is the
pressure curve of temperature `T[i]` over the molar volumes. -/
lemma calculate_pr_eos_eq_map (Ts Vs : List ℝ) :
    calculate_pr_eos Ts Vs = Ts.map fun T => Vs.map fun V => pressure T V := by
  induction Ts with
  | nil => rfl
  | cons T Ts ih =>
      simpa [calculate_pr_eos, pressure, a, alpha, List.zipWith,
        List.map_cons] using ih

lemma K_eq : K = 0.71224375872 := by norm_num [K, w]

lemma b_pos : 0 < b := by norm_num [b, Omega, R, Tc, Pc]

lemma b_gt : 2.667e-5 < b := by norm_num [b, Omega, R, Tc, Pc]

lemma b_lt : b < 2.668e-5 := by norm_num [b, Omega, R, Tc, Pc]

/-- The second denominator `V*(V+b) + b*(V-b)` is positive whenever
`b < V` (with `0 < b`). -/
lemma denom2_pos {B V : ℝ} (hB : 0 < B) (hV : B < V) :
    0 < V * (V + B) + B * (V - B) := by nlinarith

/-- Nonnegativity of `a` at every temperature. -/
lemma a_nonneg (T : ℝ) : 0 ≤ a T := by
  have h1 : (0 : ℝ) ≤ alpha T := by
    have := sq_nonneg (1 + K * (1 - Real.sqrt (T / Tc)))
    simpa [alpha] using this
  have h2 : (0 : ℝ) < Psi := by norm_num [Psi]
  have h3 : (0 : ℝ) < R ^ 2 * Tc ^ 2 := by norm_num [R, Tc]
  have h4 : (0 : ℝ) < Pc := by norm_num [Pc]
  have : 0 ≤ Psi * alpha T * (R ^ 2 * Tc ^ 2) := by positivity
  exact div_nonneg this h4.le

/-- Reading a mapped list with `getD` below the length applies the
function to the entry read from the original list. -/
lemma getD_map_of_lt {α β : Type} (f : α → β) (l : List α) (n : ℕ)
    (h : n < l.length) (d : α) (d' : β) :
    (l.map f).getD n d' = f (l.getD n d) := by
  rw [List.getD_eq_getElem?_getD, List.getElem?_map, List.getElem?_eq_getElem h]
  simp [List.getD_eq_getElem?_getD, List.getElem?_eq_getElem h]

/-- Cell `[i][j]` of the grid, read with `getD`. -/
lemma grid_getD (Ts Vs : List ℝ) (i j : ℕ)
    (hi : i < Ts.length) (hj : j < Vs.length) :
    ((calculate_pr_eos Ts Vs).getD i []).getD j 0 =
      pressure (Ts.getD i 0) (Vs.getD j 0) := by
  rw [calculate_pr_eos_eq_map]
  rw [getD_map_of_lt _ Ts i hi 0 []]
  rw [getD_map_of_lt _ Vs j hj 0 0]

lemma calculate_pr_eos_length (Ts Vs : List ℝ) :
    (calculate_pr_eos Ts Vs).length = Ts.length := by
  rw [calculate_pr_eos_eq_map]; simp

lemma calculate_pr_eos_row_length (Ts Vs : List ℝ) :
    ∀ row ∈ calculate_pr_eos Ts Vs, row.length = Vs.length := by
  rw [calculate_pr_eos_eq_map]
  intro row hrow
  obtain ⟨T, _, rfl⟩ := List.mem_map.1 hrow
  simp

/-- C1: for every temperature vector and molar-volume vector, cell
`[i][j]` of the grid equals
`R*T[i]/(V[j]-b) - a[i]/(V[j]*(V[j]+b) + b*(V[j]-b))` where
`b = Omega*R*Tc/Pc` with `Omega = 0.07780`,
`K = 0.37464 + 1.54226*w - 0.26992*w^2`,
`alpha[i] = (1 + K*(1 - sqrt(T[i]/Tc)))^2`, and
`a[i] = Psi*alpha[i]*R^2*Tc^2/Pc` with `Psi = 0.45724`, at the CO2
constants `Tc = 304.2`, `Pc = 7.377e6`, `w = 0.228`, `R = 8.314`, in
the order of operations of the source. -/
theorem c1_grid_cell_formula (Ts Vs : List ℝ) (i j : ℕ)
    (hi : i < Ts.length) (hj : j < Vs.length) :
    ((calculate_pr_eos Ts Vs).getD i []).getD j 0 =
      8.314 * Ts.getD i 0 / (Vs.getD j 0 - 0.07780 * 8.314 * 304.2 / 7.377e6) -
        0.45724 * ((1 + (0.37464 + 1.54226 * 0.228 - 0.26992 * 0.228 ^ 2) *
              (1 - Real.sqrt (Ts.getD i 0 / 304.2))) ^ 2) *
            (8.314 ^ 2 * 304.2 ^ 2) / 7.377e6 /
          (Vs.getD j 0 * (Vs.getD j 0 + 0.07780 * 8.314 * 304.2 / 7.377e6) +
            0.07780 * 8.314 * 304.2 / 7.377e6 *
              (Vs.getD j 0 - 0.07780 * 8.314 * 304.2 / 7.377e6)) := by
  rw [grid_getD Ts Vs i j hi hj]
  simp [pressure, a, alpha, K, b, Psi, Omega, R, Tc, Pc, w]

/-- Witness for C1 at `T = [300]`, `V = [0.0003]`, cell `[0][0]`. -/
theorem c1_grid_cell_formula_witness :
    ((calculate_pr_eos [300] [0.0003]).getD 0 []).getD 0 0 =
      8.314 * (List.getD [(300 : ℝ)] 0 0) /
          (List.getD [(0.0003 : ℝ)] 0 0 - 0.07780 * 8.314 * 304.2 / 7.377e6) -
        0.45724 * ((1 + (0.37464 + 1.54226 * 0.228 - 0.26992 * 0.228 ^ 2) *
              (1 - Real.sqrt (List.getD [(300 : ℝ)] 0 0 / 304.2))) ^ 2) *
            (8.314 ^ 2 * 304.2 ^ 2) / 7.377e6 /
          (List.getD [(0.0003 : ℝ)] 0 0 *
              (List.getD [(0.0003 : ℝ)] 0 0 + 0.07780 * 8.314 * 304.2 / 7.377e6) +
            0.07780 * 8.314 * 304.2 / 7.377e6 *
              (List.getD [(0.0003 : ℝ)] 0 0 - 0.07780 * 8.314 * 304.2 / 7.377e6)) :=
  c1_grid_cell_formula [300] [0.0003] 0 0 (by simp) (by simp)

/-- C4: for non-empty inputs of lengths NT and NV, the grid has exactly
NT rows and every row has exactly NV columns. -/
theorem c4_shape (Ts Vs : List ℝ) (hT : Ts ≠ []) (hV : Vs ≠ []) :
    (calculate_pr_eos Ts Vs).length = Ts.length ∧
      ∀ row ∈ calculate_pr_eos Ts Vs, row.length = Vs.length :=
  ⟨calculate_pr_eos_length Ts Vs, calculate_pr_eos_row_length Ts Vs⟩

/-- Witness for C4 at `T = [300]`, `V = [0.0003]`. -/
theorem c4_shape_witness :
    (calculate_pr_eos [300] [0.0003]).length = ([(300 : ℝ)]).length ∧
      ∀ row ∈ calculate_pr_eos [(300 : ℝ)] [(0.0003 : ℝ)],
        row.length = ([(0.0003 : ℝ)]).length :=
  c4_shape [300] [0.0003] (by simp) (by simp)

/-- C9: the evaluator is a pure function of its two inputs: the grid it
returns is exactly the pointwise pressure map over the temperature and
molar-volume lists, with no other dependency and no mutation of either
input (both appear unchanged on the right-hand side). -/
theorem c9_pure_function_of_inputs (Ts Vs : List ℝ) :
    calculate_pr_eos Ts Vs = Ts.map fun T => Vs.map fun V => pressure T V :=
  calculate_pr_eos_eq_map Ts Vs

lemma K_pos : (0 : ℝ) < K := by norm_num [K, w]

lemma sqrt_300_lt_one : Real.sqrt ((300 : ℝ) / 304.2) < 1 := by
  rw [Real.sqrt_lt' one_pos]; norm_num

lemma a300_pos : 0 < a 300 := by
  have hbase : (0 : ℝ) < 1 + K * (1 - Real.sqrt (300 / Tc)) := by
    rw [show (300 : ℝ) / Tc = 300 / 304.2 by norm_num [Tc]]
    nlinarith [Real.sqrt_nonneg ((300 : ℝ) / 304.2), sqrt_300_lt_one, K_pos]
  have halpha : 0 < alpha 300 := by
    have := pow_pos hbase 2
    simpa [alpha] using this
  have hPsi : (0 : ℝ) < Psi := by norm_num [Psi]
  have hRT2 : (0 : ℝ) < R ^ 2 * Tc ^ 2 := by norm_num [R, Tc]
  have hPc : (0 : ℝ) < Pc := by norm_num [Pc]
  unfold a
  exact div_pos (mul_pos (mul_pos hPsi halpha) hRT2) hPc

/-- At the singular input `V = b` the first denominator vanishes and,
in the total-division model, the cell reduces to `-(a 300 / (2*b^2))`. -/
lemma pressure_at_b : pressure 300 b = -(a 300 / (2 * b ^ 2)) := by
  unfold pressure
  rw [sub_self, div_zero, zero_sub]
  congr 1
  ring

/-- C2: the source evaluator performs no input validation: at the
singular input `V = b` (first denominator `V - b = 0`) it still
returns a full 1×1 grid instead of signalling `InvalidInput`, and in
the exact model the returned cell is a meaningless negative number. -/
theorem c2_returns_grid_at_singularity :
    (calculate_pr_eos [300] [b]).length = 1 ∧
      ((calculate_pr_eos [300] [b]).getD 0 []).length = 1 ∧
      ((calculate_pr_eos [300] [b]).getD 0 []).getD 0 0 < 0 := by
  refine ⟨(calculate_pr_eos_length [300] [b]).trans rfl, ?_, ?_⟩
  · rw [calculate_pr_eos_eq_map]; simp
  · rw [grid_getD [300] [b] 0 0 (by simp) (by simp)]
    have h2b : (0 : ℝ) < 2 * b ^ 2 := by nlinarith [b_pos]
    have : (List.getD [(300 : ℝ)] 0 0) = 300 := rfl
    rw [this, show (List.getD [b] 0 0) = b from rfl, pressure_at_b]
    exact neg_lt_zero.mpr (div_pos a300_pos h2b)

/-- C3 counterexample: the evaluator does not take the substance
constants from the caller; with the gas constant doubled (`R = 16.628`)
the spec-style `evaluate` produces a different grid on the same inputs,
while `calculate_pr_eos` has no constants argument at all and always
uses its internal CO2 literals. -/
theorem c3_constants_not_a_parameter_cex :
    calculate_pr_eos [304.2] [0.0003] ≠
      evaluate [304.2] [0.0003]
        { Tc := 304.2, Pc := 7.377e6, w := 0.228, R := 16.628 } := by
  have hsq : Real.sqrt ((304.2 : ℝ) / 304.2) = 1 := by
    rw [show (304.2 : ℝ) / 304.2 = 1 by norm_num, Real.sqrt_one]
  simp only [calculate_pr_eos, evaluate, List.map_cons, List.map_nil,
    List.zipWith_cons_cons, List.zipWith_nil_right, Tc, Pc, w, R, K, b,
    Psi, Omega, hsq, ne_eq, List.cons.injEq, and_true, not_and]
  intro h
  norm_num at h

/-- C3 amended: the source evaluator coincides with the
constants-parameterized `evaluate` of the spec specialized to the CO2 constants;
the constants are hard-coded literals, not a caller-supplied
parameter. -/
theorem c3_amended_co2_specialization (Ts Vs : List ℝ) :
    calculate_pr_eos Ts Vs = evaluate Ts Vs co2Constants := by
  simp only [calculate_pr_eos, evaluate, co2Constants, K, b, Psi, Omega,
    R, Tc, Pc, w]

lemma sqrt_300_gt : (0.9930 : ℝ) < Real.sqrt (300 / 304.2) :=
  (Real.lt_sqrt (by norm_num)).2 (by norm_num)

lemma sqrt_300_lt : Real.sqrt ((300 : ℝ) / 304.2) < 0.9931 :=
  (Real.sqrt_lt' (by norm_num)).2 (by norm_num)

/-- Exact-arithmetic bounds on the single default known-value cell. -/
lemma pressure_300_bounds :
    1e6 < pressure 300 0.0003 ∧ pressure 300 0.0003 < 1e7 := by
  have hTc : (300 : ℝ) / Tc = 300 / 304.2 := by norm_num [Tc]
  have hP : pressure 300 0.0003 =
      R * 300 / (0.0003 - b) -
        Psi * (R ^ 2 * Tc ^ 2) / Pc /
            (0.0003 * (0.0003 + b) + b * (0.0003 - b)) *
          (1 + K * (1 - Real.sqrt (300 / 304.2))) ^ 2 := by
    simp only [pressure, a, alpha, hTc]
    ring
  have hs1 := sqrt_300_gt
  have hs2 := sqrt_300_lt
  set s : ℝ := Real.sqrt (300 / 304.2) with hsdef
  have hu_lo : (1.00491 : ℝ) < 1 + K * (1 - s) := by rw [K_eq]; linarith
  have hu_hi : 1 + K * (1 - s) < 1.00499 := by rw [K_eq]; linarith
  have husq_lo : (1.00491 : ℝ) ^ 2 < (1 + K * (1 - s)) ^ 2 :=
    pow_lt_pow_left hu_lo (by norm_num) two_ne_zero
  have husq_hi : (1 + K * (1 - s)) ^ 2 < (1.00499 : ℝ) ^ 2 :=
    pow_lt_pow_left hu_hi (by linarith) two_ne_zero
  rw [hP]
  constructor
  · have hcoef : Psi * (R ^ 2 * Tc ^ 2) / Pc /
        (0.0003 * (0.0003 + b) + b * (0.0003 - b)) *
          (1 + K * (1 - s)) ^ 2 <
        Psi * (R ^ 2 * Tc ^ 2) / Pc /
          (0.0003 * (0.0003 + b) + b * (0.0003 - b)) * (1.00499 : ℝ) ^ 2 := by
      refine mul_lt_mul_of_pos_left husq_hi ?_
      norm_num [Psi, R, Tc, Pc, b, Omega]
    have hA : (5e6 : ℝ) < R * 300 / (0.0003 - b) -
        Psi * (R ^ 2 * Tc ^ 2) / Pc /
          (0.0003 * (0.0003 + b) + b * (0.0003 - b)) * (1.00499 : ℝ) ^ 2 := by
      norm_num [Psi, R, Tc, Pc, b, Omega]
    linarith
  · have hcoef : Psi * (R ^ 2 * Tc ^ 2) / Pc /
        (0.0003 * (0.0003 + b) + b * (0.0003 - b)) * (1.00491 : ℝ) ^ 2 <
        Psi * (R ^ 2 * Tc ^ 2) / Pc /
          (0.0003 * (0.0003 + b) + b * (0.0003 - b)) *
            (1 + K * (1 - s)) ^ 2 := by
      refine mul_lt_mul_of_pos_left husq_lo ?_
      norm_num [Psi, R, Tc, Pc, b, Omega]
    have hA : R * 300 / (0.0003 - b) -
        Psi * (R ^ 2 * Tc ^ 2) / Pc /
          (0.0003 * (0.0003 + b) + b * (0.0003 - b)) * (1.00491 : ℝ) ^ 2 <
        (6e6 : ℝ) := by
      norm_num [Psi, R, Tc, Pc, b, Omega]
    linarith

/-- C7 counterexample: the acentric coefficient computed by the code
from `w = 0.228` is exactly `K = 0.71224375872`, which is not close to
the claimed `0.7024` (it differs by more than `0.0098`, far beyond any
tolerance consistent with a four-digit approximation). -/
theorem c7_k_value_cex :
    K = 0.71224375872 ∧ (0.0098 : ℝ) < |K - 0.7024| := by
  refine ⟨K_eq, ?_⟩
  rw [K_eq, abs_of_pos (by norm_num)]
  norm_num

/-- C7 amended: with the CO2 constants and `T = [300]`,
`V = [0.0003]`, the intermediates satisfy `|b - 2.667e-5| < 3e-9` and
`K = 0.71224375872 ≈ 0.7122` (not `0.7024`), and the single output
cell equals the §4.1 formula exactly and lies strictly between `1e6`
and `1e7` Pa. -/
theorem c7_amended_known_values :
    |b - 2.667e-5| < 3e-9 ∧ K = 0.71224375872 ∧
      ((calculate_pr_eos [300] [0.0003]).getD 0 []).getD 0 0 =
        R * 300 / (0.0003 - b) -
          a 300 / (0.0003 * (0.0003 + b) + b * (0.0003 - b)) ∧
      1e6 < ((calculate_pr_eos [300] [0.0003]).getD 0 []).getD 0 0 ∧
      ((calculate_pr_eos [300] [0.0003]).getD 0 []).getD 0 0 < 1e7 := by
  have hcell : ((calculate_pr_eos [300] [0.0003]).getD 0 []).getD 0 0 =
      pressure 300 0.0003 := by
    rw [grid_getD [300] [0.0003] 0 0 (by simp) (by simp)]
    rfl
  refine ⟨?_, K_eq, ?_, ?_, ?_⟩
  · rw [abs_of_pos (by norm_num [b, Omega, R, Tc, Pc])]
    norm_num [b, Omega, R, Tc, Pc]
  · rw [hcell]; rfl
  · rw [hcell]; exact pressure_300_bounds.1
  · rw [hcell]; exact pressure_300_bounds.2

/-- The attraction parameter is strictly smaller at 325 K than at
295 K: `alpha` falls through 1 as the reduced temperature crosses 1. -/
lemma a325_lt_a295 : a 325 < a 295 := by
  have hT1 : (295 : ℝ) / Tc = 295 / 304.2 := by norm_num [Tc]
  have hT2 : (325 : ℝ) / Tc = 325 / 304.2 := by norm_num [Tc]
  have hs1 : Real.sqrt ((295 : ℝ) / 304.2) < 1 :=
    (Real.sqrt_lt' one_pos).2 (by norm_num)
  have hs2a : (1 : ℝ) < Real.sqrt ((325 : ℝ) / 304.2) :=
    (Real.lt_sqrt (by norm_num)).2 (by norm_num)
  have hs2b : Real.sqrt ((325 : ℝ) / 304.2) < 1.04 :=
    (Real.sqrt_lt' (by norm_num)).2 (by norm_num)
  have hu1 : 1 < 1 + K * (1 - Real.sqrt ((295 : ℝ) / 304.2)) := by
    rw [K_eq]; linarith
  have hu2a : 0 < 1 + K * (1 - Real.sqrt ((325 : ℝ) / 304.2)) := by
    rw [K_eq]; linarith
  have hu2b : 1 + K * (1 - Real.sqrt ((325 : ℝ) / 304.2)) < 1 := by
    rw [K_eq]; linarith
  have halpha : alpha 325 < alpha 295 := by
    unfold alpha
    rw [hT1, hT2]
    exact pow_lt_pow_left (hu2b.trans hu1) hu2a.le two_ne_zero
  have hPsi : (0 : ℝ) < Psi := by norm_num [Psi]
  have hX : (0 : ℝ) < R ^ 2 * Tc ^ 2 := by norm_num [R, Tc]
  have hPc : (0 : ℝ) < Pc := by norm_num [Pc]
  have hmul : Psi * alpha 325 * (R ^ 2 * Tc ^ 2) <
      Psi * alpha 295 * (R ^ 2 * Tc ^ 2) :=
    mul_lt_mul_of_pos_right (mul_lt_mul_of_pos_left halpha hPsi) hX
  have hfin := mul_lt_mul_of_pos_right hmul (inv_pos.2 hPc)
  simpa [a, div_eq_mul_inv] using hfin

/-- At a fixed molar volume above `b`, the pressure at 295 K is
strictly below the pressure at 325 K. -/
lemma pressure_295_lt_325 (V : ℝ) (hV : b < V) :
    pressure 295 V < pressure 325 V := by
  have hd1 : (0 : ℝ) < V - b := sub_pos.2 hV
  have hd2 : (0 : ℝ) < V * (V + b) + b * (V - b) := denom2_pos b_pos hV
  have h1 : R * 295 / (V - b) < R * 325 / (V - b) := by
    rw [div_eq_mul_inv, div_eq_mul_inv]
    exact mul_lt_mul_of_pos_right (by norm_num [R]) (inv_pos.2 hd1)
  have h2 : a 325 / (V * (V + b) + b * (V - b)) <
      a 295 / (V * (V + b) + b * (V - b)) := by
    rw [div_eq_mul_inv, div_eq_mul_inv]
    exact mul_lt_mul_of_pos_right a325_lt_a295 (inv_pos.2 hd2)
  unfold pressure
  linarith

/-- C8: for temperatures `[295, 325]` and any molar-volume vector of
length 50 whose entries all exceed `b`, whenever `a 295 ≠ a 325` the
two output rows differ in every column: the temperature-dependent term
is not shared across rows. -/
theorem c8_rows_differ (Vs : List ℝ) (hlen : Vs.length = 50)
    (hV : ∀ v ∈ Vs, b < v) (ha : a 295 ≠ a 325) (j : ℕ) (hj : j < 50) :
    ((calculate_pr_eos [295, 325] Vs).getD 0 []).getD j 0 ≠
      ((calculate_pr_eos [295, 325] Vs).getD 1 []).getD j 0 := by
  have hj' : j < Vs.length := hlen ▸ hj
  rw [grid_getD [295, 325] Vs 0 j (by simp) hj']
  rw [grid_getD [295, 325] Vs 1 j (by simp) hj']
  have hmem : Vs.getD j 0 ∈ Vs := by
    rw [List.getD_eq_getElem?_getD, List.getElem?_eq_getElem hj']
    exact List.getElem_mem hj'
  have hb : b < Vs.getD j 0 := hV _ hmem
  rw [show List.getD [(295 : ℝ), 325] 0 0 = 295 from rfl,
    show List.getD [(295 : ℝ), 325] 1 0 = 325 from rfl]
  exact ne_of_lt (pressure_295_lt_325 _ hb)

/-- Witness for C8 with 50 copies of `V = 0.0003` and column 0. -/
theorem c8_rows_differ_witness :
    ((calculate_pr_eos [295, 325] (List.replicate 50 0.0003)).getD 0 []).getD 0 0 ≠
      ((calculate_pr_eos [295, 325] (List.replicate 50 0.0003)).getD 1 []).getD 0 0 :=
  c8_rows_differ (List.replicate 50 0.0003) (by simp)
    (fun v hv => by
      rw [List.eq_of_mem_replicate hv]
      norm_num [b, Omega, R, Tc, Pc])
    (ne_of_gt a325_lt_a295) 0 (by norm_num)

/-- Every default density lies in `[50, 1000]` kg/m³. -/
lemma density_bounds {d : ℝ} (hd : d ∈ densities_kg_m3) :
    50 ≤ d ∧ d ≤ 1000 := by
  obtain ⟨i, hi, rfl⟩ := List.mem_map.1 hd
  have hi' : i < 50 := List.mem_range.1 hi
  have hle : (i : ℝ) ≤ 49 := by exact_mod_cast Nat.lt_succ_iff.1 hi'
  have h0 : (0 : ℝ) ≤ (i : ℝ) := Nat.cast_nonneg i
  constructor
  · linarith
  · linarith

/-- Every default molar volume is at least `0.044 / 1000 = 4.4e-5`. -/
lemma molar_volume_lb {v : ℝ} (hv : v ∈ molar_volumes_m3_mol) :
    4.4e-5 ≤ v := by
  obtain ⟨d, hd, rfl⟩ := List.mem_map.1 hv
  obtain ⟨hd1, hd2⟩ := density_bounds hd
  have hdpos : (0 : ℝ) < d := by linarith
  rw [show molar_mass_co2 = (0.044 : ℝ) from rfl, le_div_iff hdpos]
  linarith

/-- Every default molar volume strictly exceeds the co-volume `b`. -/
lemma molar_volume_gt_b {v : ℝ} (hv : v ∈ molar_volumes_m3_mol) : b < v :=
  lt_of_lt_of_le (by linarith [b_lt]) (molar_volume_lb hv)

lemma densities_getD_49 : densities_kg_m3.getD 49 0 = 1000 := by
  unfold densities_kg_m3
  rw [getD_map_of_lt _ (List.range 50) 49 (by simp) 0 0]
  have : (List.range 50).getD 49 0 = 49 := by
    simp [List.getD_eq_getElem?_getD, List.getElem?_eq_getElem,
      List.getElem_range]
  rw [this]
  norm_num

lemma densities_getD_0 : densities_kg_m3.getD 0 0 = 50 := by
  unfold densities_kg_m3
  rw [getD_map_of_lt _ (List.range 50) 0 (by simp) 0 0]
  have : (List.range 50).getD 0 0 = 0 := rfl
  rw [this]
  norm_num

/-- C5: the default pipeline uses temperatures `[295, 325, 345, 375]`
and 50 densities linearly spaced from 50 to 1000 kg/m³, converts each
density to a molar volume by `V = 0.044 / density` element-wise, and
the resulting grid has shape 4×50 with both pressure denominators
strictly positive at every cell (so every entry is a well-defined
finite real). -/
theorem c5_default_pipeline :
    temperatures_K = [295, 325, 345, 375] ∧
      densities_kg_m3.length = 50 ∧
      densities_kg_m3.getD 0 0 = 50 ∧
      densities_kg_m3.getD 49 0 = 1000 ∧
      molar_volumes_m3_mol = densities_kg_m3.map (fun ρ => 0.044 / ρ) ∧
      pressure_Pa.length = 4 ∧
      (∀ row ∈ pressure_Pa, row.length = 50) ∧
      ∀ v ∈ molar_volumes_m3_mol,
        0 < v - b ∧ 0 < v * (v + b) + b * (v - b) := by
  refine ⟨rfl, by simp [densities_kg_m3], densities_getD_0, densities_getD_49,
    rfl, ?_, ?_, ?_⟩
  · rw [pressure_Pa, calculate_pr_eos_length]; rfl
  · intro row hrow
    have := calculate_pr_eos_row_length temperatures_K molar_volumes_m3_mol
      row hrow
    rw [this]
    simp [molar_volumes_m3_mol, densities_kg_m3]
  · intro v hv
    have hb := molar_volume_gt_b hv
    exact ⟨sub_pos.2 hb, denom2_pos b_pos hb⟩

/-- C10: every default molar volume `0.044/ρ` strictly exceeds
`b = 0.07780*8.314*304.2/7.377e6 ∈ (2.667e-5, 2.668e-5)`; the smallest
volume (at `ρ = 1000`, index 49) is exactly `4.4e-5`; hence both
denominators `V - b` and `V*(V+b) + b*(V-b)` are strictly positive at
every grid cell of the default run. -/
theorem c10_default_denominators_positive :
    (∀ v ∈ molar_volumes_m3_mol,
        b < v ∧ 0 < v - b ∧ 0 < v * (v + b) + b * (v - b)) ∧
      molar_volumes_m3_mol.getD 49 0 = 4.4e-5 ∧
      (∀ v ∈ molar_volumes_m3_mol, 4.4e-5 ≤ v) ∧
      2.667e-5 < b ∧ b < 2.668e-5 := by
  refine ⟨?_, ?_, fun v hv => molar_volume_lb hv, b_gt, b_lt⟩
  · intro v hv
    have hb := molar_volume_gt_b hv
    exact ⟨hb, sub_pos.2 hb, denom2_pos b_pos hb⟩
  · unfold molar_volumes_m3_mol
    rw [getD_map_of_lt _ densities_kg_m3 49
        (by simp [densities_kg_m3]) 0 0]
    rw [densities_getD_49]
    norm_num [molar_mass_co2]

set_option maxHeartbeats 1600000 in
/-- C6: with the CO2 constants, at every fixed temperature `T > 0`,
the computed pressure strictly decreases as the molar volume increases
over the physically stable region: for all `V1 < V2` with `V1` at
least `stable_threshold T` (which is itself larger than `b`), the
pressure at `V1` strictly exceeds the pressure at `V2`. -/
theorem c6_pressure_strictly_decreasing (T V1 V2 : ℝ) (hT : 0 < T)
    (h1 : stable_threshold T ≤ V1) (h12 : V1 < V2) :
    pressure T V2 < pressure T V1 := by
  have hb := b_pos
  have hR : (0 : ℝ) < R := by norm_num [R]
  have hRT : 0 < R * T := mul_pos hR hT
  have haT := a_nonneg T
  unfold stable_threshold at h1
  set m : ℝ := max 1 (2 * a T * (1 + 2 * b) / (R * T)) with hm
  have hc1 : (1 : ℝ) ≤ m := le_max_left _ _
  have hc2 : 2 * a T * (1 + 2 * b) ≤ m * (R * T) := by
    have h := le_max_right (1 : ℝ) (2 * a T * (1 + 2 * b) / (R * T))
    rw [← hm, div_le_iff hRT] at h
    exact h
  have hx : m ≤ V1 - b := by linarith
  have hy : m < V2 - b := by linarith
  have hx0 : 0 < V1 - b := by linarith
  have hy0 : 0 < V2 - b := by linarith
  have hD1 : (V1 - b) ^ 2 < V1 * (V1 + b) + b * (V1 - b) := by
    nlinarith [mul_pos hb hx0, mul_pos hb hb]
  have hD2 : (V2 - b) ^ 2 < V2 * (V2 + b) + b * (V2 - b) := by
    nlinarith [mul_pos hb hy0, mul_pos hb hb]
  have hD1pos : 0 < V1 * (V1 + b) + b * (V1 - b) := by
    nlinarith [pow_pos hx0 2]
  have hD2pos : 0 < V2 * (V2 + b) + b * (V2 - b) := by
    nlinarith [pow_pos hy0 2]
  have hG1 : 0 ≤ R * T * ((V1 - b) * (V2 - b) - m * (V2 - b)) :=
    mul_nonneg hRT.le
      (by nlinarith [mul_nonneg (sub_nonneg.2 hx) hy0.le])
  have hG2 : 0 ≤ R * T * ((V1 - b) * (V2 - b) - m * (V1 - b)) :=
    mul_nonneg hRT.le
      (by nlinarith [mul_nonneg (sub_nonneg.2 hy.le) hx0.le])
  have hG3 : 0 ≤ (m * (R * T) - 2 * a T * (1 + 2 * b)) *
      ((V1 - b) + (V2 - b)) :=
    mul_nonneg (by linarith) (by linarith)
  have hG4 : 0 ≤ a T * b * ((V1 - b) + (V2 - b) - 2) :=
    mul_nonneg (mul_nonneg haT hb.le) (by linarith)
  have key0 : a T * ((V1 - b) + (V2 - b) + 4 * b) ≤
      R * T * ((V1 - b) * (V2 - b)) := by
    nlinarith [hG1, hG2, hG3, hG4]
  have keyxy : a T * ((V1 - b) + (V2 - b) + 4 * b) * ((V1 - b) * (V2 - b)) ≤
      R * T * ((V1 - b) * (V2 - b)) * ((V1 - b) * (V2 - b)) :=
    mul_le_mul_of_nonneg_right key0 (mul_pos hx0 hy0).le
  have hsq : (V1 - b) ^ 2 * (V2 - b) ^ 2 <
      (V1 * (V1 + b) + b * (V1 - b)) * (V2 * (V2 + b) + b * (V2 - b)) :=
    mul_lt_mul'' hD1 hD2 (sq_nonneg _) (sq_nonneg _)
  have hstrict : R * T * ((V1 - b) * (V2 - b)) * ((V1 - b) * (V2 - b)) <
      R * T * ((V1 * (V1 + b) + b * (V1 - b)) *
        (V2 * (V2 + b) + b * (V2 - b))) := by
    nlinarith [mul_lt_mul_of_pos_left hsq hRT]
  have hNumR : 0 < R * T * ((V1 * (V1 + b) + b * (V1 - b)) *
        (V2 * (V2 + b) + b * (V2 - b))) -
      a T * ((V1 - b) + (V2 - b) + 4 * b) * ((V1 - b) * (V2 - b)) := by
    linarith
  have hNum : 0 < (V2 - V1) *
      (R * T * ((V1 * (V1 + b) + b * (V1 - b)) *
          (V2 * (V2 + b) + b * (V2 - b))) -
        a T * ((V1 - b) + (V2 - b) + 4 * b) * ((V1 - b) * (V2 - b))) :=
    mul_pos (by linarith) hNumR
  have hDen : 0 < (V1 - b) * (V2 - b) *
      (V1 * (V1 + b) + b * (V1 - b)) * (V2 * (V2 + b) + b * (V2 - b)) :=
    mul_pos (mul_pos (mul_pos hx0 hy0) hD1pos) hD2pos
  have hiden : pressure T V1 - pressure T V2 =
      (V2 - V1) *
          (R * T * ((V1 * (V1 + b) + b * (V1 - b)) *
              (V2 * (V2 + b) + b * (V2 - b))) -
            a T * ((V1 - b) + (V2 - b) + 4 * b) * ((V1 - b) * (V2 - b))) /
        ((V1 - b) * (V2 - b) *
          (V1 * (V1 + b) + b * (V1 - b)) * (V2 * (V2 + b) + b * (V2 - b))) := by
    unfold pressure
    field_simp
    ring
  have : 0 < pressure T V1 - pressure T V2 := by
    rw [hiden]
    exact div_pos hNum hDen
  linarith

/-- Witness for C6 at `T = 304.2` (where `alpha = 1`), `V1 = 1.1`,
`V2 = 2`. -/
theorem c6_pressure_strictly_decreasing_witness :
    pressure 304.2 2 < pressure 304.2 1.1 := by
  refine c6_pressure_strictly_decreasing 304.2 1.1 2 (by norm_num) ?_
    (by norm_num)
  have hsq : Real.sqrt ((304.2 : ℝ) / 304.2) = 1 := by
    rw [show (304.2 : ℝ) / 304.2 = 1 by norm_num, Real.sqrt_one]
  have ha : a 304.2 = Psi * (R ^ 2 * Tc ^ 2) / Pc := by
    rw [a, alpha, show (304.2 : ℝ) / Tc = 304.2 / 304.2 by norm_num [Tc], hsq]
    ring
  rw [stable_threshold, ha]
  have hmax : max 1 (2 * (Psi * (R ^ 2 * Tc ^ 2) / Pc) * (1 + 2 * b) /
      (R * 304.2)) = 1 := by
    rw [max_eq_left]
    norm_num [Psi, R, Tc, Pc, b, Omega]
  rw [hmax]
  norm_num [b, Omega, R, Tc, Pc]

end

end PlotCO2
